import Mathlib

/-!
Shallow embedding of the ViewmaXX asynchronous video transcoding pipeline.

The definitions below are translated from
`server/src/services/videoProcessor.ts` (the queue worker
`processVideoQueue` / `addVideoToQueue`, the orchestrator `processVideo`,
and the master-playlist assembler `generateMasterHLS`) and from the
transcoding utilities bundled with `server/src/services/socket.ts`
(`transcodeVideo` and its 8-tier `VIDEO_QUALITIES` table).

External effects (ffmpeg, S3, Prisma, Redis, the filesystem) are modelled
by an explicit environment of success/failure oracles; the orchestrator is
a pure function from that environment to the trace of catalog updates,
object-store uploads, notifications, local files and attempted renditions
it produces.  A stage that `throw`s in the TypeScript source is modelled
with `Except`, the error value carrying the state at the throw point so
that the `catch` block can be applied to it.
-/

/-- One rendition tier of `VIDEO_QUALITIES` in `videoProcessor.ts`
(`bitrateK` is the numeric prefix of the `'200k'`-style bitrate string,
exactly what `parseInt` extracts from it). -/
structure Quality where
  name : String
  width : Nat
  height : Nat
  bitrateK : Nat
deriving DecidableEq

/-- The `VIDEO_QUALITIES` ladder of `videoProcessor.ts` (7 tiers, no 240p). -/
def VIDEO_QUALITIES : List Quality :=
  [⟨"144p", 256, 144, 200⟩,
   ⟨"360p", 640, 360, 800⟩,
   ⟨"480p", 854, 480, 1200⟩,
   ⟨"720p", 1280, 720, 2500⟩,
   ⟨"1080p", 1920, 1080, 4500⟩,
   ⟨"1440p", 2560, 1440, 8000⟩,
   ⟨"2160p", 3840, 2160, 15000⟩]

/-- One rendition tier of the `VIDEO_QUALITIES` table bundled with
`socket.ts` (these tiers carry an audio bitrate but no width). -/
structure SockQuality where
  name : String
  height : Nat
  bitrateK : Nat
  audioBitrateK : Nat
deriving DecidableEq

/-- The `VIDEO_QUALITIES` ladder of the `socket.ts`-bundled transcoder
(8 tiers, including 240p). -/
def SOCKET_VIDEO_QUALITIES : List SockQuality :=
  [⟨"144p", 144, 95, 48⟩,
   ⟨"240p", 240, 150, 64⟩,
   ⟨"360p", 360, 276, 64⟩,
   ⟨"480p", 480, 750, 96⟩,
   ⟨"720p", 720, 2500, 128⟩,
   ⟨"1080p", 1080, 4500, 128⟩,
   ⟨"1440p", 1440, 9000, 192⟩,
   ⟨"2160p", 2160, 20000, 192⟩]

/-- The rendition ladder `processVideo` in `videoProcessor.ts` actually
attempts for a source of height `h`: the loop skips a tier `q` exactly
when `h < q.height`. -/
def plannedQualities (h : Nat) : List Quality :=
  VIDEO_QUALITIES.filter (fun q => q.height ≤ h)

/-- The ladder `transcodeVideo` in the `socket.ts`-bundled transcoder
derives: `VIDEO_QUALITIES.filter(q => q.height <= inputHeight)`. -/
def applicableQualities (h : Nat) : List SockQuality :=
  SOCKET_VIDEO_QUALITIES.filter (fun q => q.height ≤ h)

/-- S3 key of the thumbnail: `thumbnails/{videoId}/thumbnail.jpg`. -/
def thumbKey (vid : String) : String :=
  "thumbnails/" ++ vid ++ "/thumbnail.jpg"

/-- S3 key `videos/{videoId}/{name}.mp4` used for a rendition's MP4. -/
def mp4Key (vid name : String) : String :=
  "videos/" ++ vid ++ "/" ++ name ++ ".mp4"

/-- S3 key `videos/{videoId}/{name}.m3u8` used for a rendition's playlist. -/
def playlistKey (vid name : String) : String :=
  "videos/" ++ vid ++ "/" ++ name ++ ".m3u8"

/-- S3 key of the master playlist: `videos/{videoId}/master.m3u8`. -/
def masterKey (vid : String) : String :=
  "videos/" ++ vid ++ "/master.m3u8"

/-- Zero-padding of the `%03d` segment counter in `generateHLS`. -/
def pad3 (i : Nat) : String :=
  if i < 10 then "00" ++ toString i
  else if i < 100 then "0" ++ toString i
  else toString i

/-- Local file name of one HLS media segment (`{name}_%03d.ts`). -/
def segmentFile (name : String) (i : Nat) : String :=
  name ++ "_" ++ pad3 i ++ ".ts"

/-- The segment files `generateHLS` leaves in the work directory. -/
def segmentFiles (name : String) (c : Nat) : List String :=
  (List.range c).map (segmentFile name)

/-- Catalog (`prisma.video`) status values written by the pipeline. -/
inductive CatStatus
  | processing
  | published
  | failed
deriving DecidableEq

/-- A user notification created by `processVideo`: the success notification
of the happy path, or the failure notification whose `data.error` field is
the constant string `'Processing failed'`. -/
inductive Notif
  | success (videoId : String)
  | failure (errorText : String)
deriving DecidableEq

/-- Environment of external-effect oracles for one `processVideo` run:
whether `ffprobe` succeeds and what height it reports, whether the
thumbnail screenshot succeeds, per-rendition transcode and HLS-segmentation
success, per-key S3 upload success, how many `.ts` segments segmentation
produces, and whether `prisma.video.findUnique` still finds the video row
on the failure path. -/
structure Env where
  probeOk : Bool
  sourceHeight : Nat
  thumbOk : Bool
  encodeOk : String → Bool
  hlsOk : String → Bool
  uploadOk : String → Bool
  segCount : String → Nat
  videoExists : Bool

/-- Observable trace of one `processVideo` run: catalog status updates in
order, S3 keys uploaded in order, notifications created, local scratch
files currently present, and the renditions whose encode was attempted
resp. fully processed (`processedFiles` keys). -/
structure ProcState where
  catalog : List CatStatus
  uploads : List String
  notifs : List Notif
  files : List String
  attempted : List String
  processed : List String
deriving DecidableEq

/-- State before `processVideo` runs: the uploaded source file is the only
local file and nothing has been recorded yet. -/
def initState : ProcState :=
  { catalog := [], uploads := [], notifs := [], files := ["source.mp4"],
    attempted := [], processed := [] }

/-- Body of the per-quality loop of `processVideo` in `videoProcessor.ts`.
The tier is skipped when the source height is below the target height;
otherwise transcode, HLS segmentation, the MP4 upload and the playlist
upload run in order, any failure being caught by the per-quality `catch`
(which only logs and moves on).  Only after both uploads succeed are the
local MP4 and playlist deleted and the rendition recorded in
`processedFiles`; failed ffmpeg invocations are modelled as producing no
output file. -/
def encodeStep (env : Env) (vid : String) (s : ProcState) (q : Quality) : ProcState :=
  if env.sourceHeight < q.height then s
  else
    let s1 := { s with attempted := s.attempted ++ [q.name] }
    if env.encodeOk q.name then
      let s2 := { s1 with files := s1.files ++ [q.name ++ ".mp4"] }
      if env.hlsOk q.name then
        let s3 := { s2 with
          files := s2.files ++ segmentFiles q.name (env.segCount q.name) ++ [q.name ++ ".m3u8"] }
        if env.uploadOk (mp4Key vid q.name) then
          let s4 := { s3 with uploads := s3.uploads ++ [mp4Key vid q.name] }
          if env.uploadOk (playlistKey vid q.name) then
            let s5 := { s4 with
              uploads := s4.uploads ++ [playlistKey vid q.name],
              processed := s4.processed ++ [q.name] }
            { s5 with
              files := (s5.files.filter (fun f => f ≠ q.name ++ ".mp4")).filter
                (fun f => f ≠ q.name ++ ".m3u8") }
          else s4
        else s3
      else s2
    else s1

/-- The `try` block of `processVideo` in `videoProcessor.ts`: mark the
video `PROCESSING`, probe, generate and upload the thumbnail, run the
per-quality loop, write and upload the master playlist, mark `PUBLISHED`,
delete the source and thumbnail, and create the success notification.
A thrown error carries the state at the throw point to the `catch`. -/
def tryBody (env : Env) (vid : String) : Except ProcState ProcState :=
  let s0 : ProcState := { initState with catalog := [CatStatus.processing] }
  if env.probeOk then
    if env.thumbOk then
      let s1 := { s0 with files := s0.files ++ ["thumbnail.jpg"] }
      if env.uploadOk (thumbKey vid) then
        let s2 := { s1 with uploads := s1.uploads ++ [thumbKey vid] }
        let s3 := VIDEO_QUALITIES.foldl (encodeStep env vid) s2
        let s4 := { s3 with files := s3.files ++ ["master.m3u8"] }
        if env.uploadOk (masterKey vid) then
          let s5 := { s4 with uploads := s4.uploads ++ [masterKey vid] }
          let s6 := { s5 with catalog := s5.catalog ++ [CatStatus.published] }
          let s7 := { s6 with files := s6.files.filter (fun f => f ≠ "source.mp4") }
          let s8 := { s7 with files := s7.files.filter (fun f => f ≠ "thumbnail.jpg") }
          Except.ok { s8 with notifs := s8.notifs ++ [Notif.success vid] }
        else Except.error s4
      else Except.error s1
    else Except.error s0
  else Except.error s0

/-- The `catch` block of `processVideo`: mark the video `FAILED`, then, if
`findUnique` still finds the row, create the failure notification (its
`data.error` field is the constant `'Processing failed'`); otherwise no
notification is sent at all. -/
def catchHandler (env : Env) (s : ProcState) : ProcState :=
  let s1 := { s with catalog := s.catalog ++ [CatStatus.failed] }
  if env.videoExists then
    { s1 with notifs := s1.notifs ++ [Notif.failure "Processing failed"] }
  else s1

/-- The orchestrator `processVideo` of `videoProcessor.ts`. -/
def processVideo (env : Env) (vid : String) : ProcState :=
  match tryBody env vid with
  | Except.ok s => s
  | Except.error s => catchHandler env s

/-- The last catalog status written for the job — its terminal outcome. -/
def lastStatus (s : ProcState) : Option CatStatus :=
  s.catalog.getLast?

/-- One `#EXT-X-STREAM-INF` line of `generateMasterHLS` in
`videoProcessor.ts`: bandwidth is `parseInt(q.bitrate) * 1000` and the
resolution is the tier's `width x height`. -/
def streamInfLine (q : Quality) : String :=
  "#EXT-X-STREAM-INF:BANDWIDTH=" ++ toString (q.bitrateK * 1000) ++
    ",RESOLUTION=" ++ toString q.width ++ "x" ++ toString q.height

/-- The lines `generateMasterHLS` joins with a newline: the two header
lines followed, for each quality passed in, by its stream-variant line and
a relative reference `{name}.m3u8` to that quality's own playlist. -/
def masterHLSLines (qs : List Quality) : List String :=
  ["#EXTM3U", "#EXT-X-VERSION:3"] ++
    (qs.map (fun q => [streamInfLine q, q.name ++ ".m3u8"])).flatten

/-- The master playlist text written by `generateMasterHLS`. -/
def masterHLSContent (qs : List Quality) : String :=
  String.intercalate "\n" (masterHLSLines qs)

/-- One `#EXT-X-STREAM-INF` line of the `socket.ts`-bundled
`transcodeVideo`: the resolution width is `Math.round(height * 16/9)`,
which on naturals is `(32 * height + 9) / 18` rounded down. -/
def sockStreamInf (q : SockQuality) : String :=
  "#EXT-X-STREAM-INF:BANDWIDTH=" ++ toString (q.bitrateK * 1000) ++
    ",RESOLUTION=" ++ toString ((32 * q.height + 9) / 18) ++ "x" ++ toString q.height

/-- The master-manifest lines the `socket.ts`-bundled `transcodeVideo`
accumulates: starting from the two header lines, the loop pushes a
stream-variant line and a playlist reference for each applicable quality
it finishes. -/
def sockManifestLines (h : Nat) : List String :=
  (applicableQualities h).foldl
    (fun acc q => acc ++ [sockStreamInf q, q.name ++ ".m3u8"])
    ["#EXTM3U", "#EXT-X-VERSION:3"]

/-- The per-quality loop of the `socket.ts`-bundled `transcodeVideo` has
no per-quality `catch`: the first failing encode rejects the promise and
the error propagates, so later tiers are never attempted.  The result is
the list of tiers whose encode was started, and whether the whole loop
completed. -/
def sockAttempt (encodeOk : String → Bool) : List SockQuality → List String × Bool
  | [] => ([], true)
  | q :: qs =>
    if encodeOk q.name then
      let r := sockAttempt encodeOk qs
      (q.name :: r.1, r.2)
    else ([q.name], false)

/-- Renditions attempted by the `socket.ts`-bundled `transcodeVideo` for a
source of height `h`, given each tier's encode outcome. -/
def socketTranscodeAttempts (h : Nat) (encodeOk : String → Bool) : List String × Bool :=
  sockAttempt encodeOk (applicableQualities h)

/-- Environment of the queue worker: how a raw queue payload parses
(`JSON.parse` returning the video id, or throwing), and the per-job
orchestrator environment. -/
structure WorkerEnv where
  parse : String → Option String
  jobEnv : String → Env

/-- State of the worker loop: the Redis list `video-processing-queue`,
the error log, and the trace of each job the orchestrator was given. -/
structure LoopState where
  queue : List String
  errorLog : List String
  results : List (String × ProcState)

/-- One run of `processVideoQueue` in `videoProcessor.ts`: `lPop` one
payload (the job is consumed even if handling it then fails); a
`JSON.parse` failure is caught by the surrounding `catch`, which only
logs `'Video queue processing error'` — no catalog record is written for
the lost job; otherwise the job is dispatched to `processVideo`. -/
def processQueueTick (w : WorkerEnv) (st : LoopState) : LoopState :=
  match st.queue with
  | [] => st
  | payload :: rest =>
    match w.parse payload with
    | none =>
      { st with queue := rest,
                errorLog := st.errorLog ++ ["Video queue processing error"] }
    | some vid =>
      { st with queue := rest,
                results := st.results ++ [(vid, processVideo (w.jobEnv payload) vid)] }

/-- Operations on the Redis job queue: `addVideoToQueue` does `rPush`
(append at the tail) and `processVideoQueue` does `lPop` (take the head,
a no-op on an empty queue). -/
inductive QOp
  | push (payload : String)
  | pop

/-- Trace of the job queue: its current contents, everything ever pushed,
and everything ever popped (dispatched), each in order. -/
structure QueueTrace where
  queue : List String
  pushed : List String
  popped : List String
deriving DecidableEq

/-- One queue operation: `rPush` appends at the tail, `lPop` removes the
head (and hands it to the orchestrator) or does nothing when empty. -/
def qStep (t : QueueTrace) : QOp → QueueTrace
  | QOp.push j => { t with queue := t.queue ++ [j], pushed := t.pushed ++ [j] }
  | QOp.pop =>
    match t.queue with
    | [] => t
    | j :: rest => { t with queue := rest, popped := t.popped ++ [j] }

/-- Run a sequence of queue operations from the empty queue. -/
def runQueue (ops : List QOp) : QueueTrace :=
  ops.foldl qStep { queue := [], pushed := [], popped := [] }

theorem encodeStep_catalog (env : Env) (vid : String) (s : ProcState) (q : Quality) :
    (encodeStep env vid s q).catalog = s.catalog := by
  unfold encodeStep
  repeat' split
  all_goals rfl

theorem encodeStep_notifs (env : Env) (vid : String) (s : ProcState) (q : Quality) :
    (encodeStep env vid s q).notifs = s.notifs := by
  unfold encodeStep
  repeat' split
  all_goals rfl

theorem foldl_encode_catalog (env : Env) (vid : String) (qs : List Quality) (s : ProcState) :
    (qs.foldl (encodeStep env vid) s).catalog = s.catalog := by
  induction qs generalizing s with
  | nil => rfl
  | cons q qs ih => rw [List.foldl_cons, ih, encodeStep_catalog]

theorem foldl_encode_notifs (env : Env) (vid : String) (qs : List Quality) (s : ProcState) :
    (qs.foldl (encodeStep env vid) s).notifs = s.notifs := by
  induction qs generalizing s with
  | nil => rfl
  | cons q qs ih => rw [List.foldl_cons, ih, encodeStep_notifs]

theorem encodeStep_attempted (env : Env) (vid : String) (s : ProcState) (q : Quality) :
    (encodeStep env vid s q).attempted =
      if env.sourceHeight < q.height then s.attempted else s.attempted ++ [q.name] := by
  by_cases h1 : env.sourceHeight < q.height
  · simp [encodeStep, h1]
  · simp only [encodeStep, h1, if_false, if_neg]
    repeat' split
    all_goals rfl

theorem foldl_encode_attempted (env : Env) (vid : String) (qs : List Quality) (s : ProcState) :
    (qs.foldl (encodeStep env vid) s).attempted =
      s.attempted ++ (qs.filter (fun q => q.height ≤ env.sourceHeight)).map (fun q => q.name) := by
  induction qs generalizing s with
  | nil => simp
  | cons q qs ih =>
    rw [List.foldl_cons, ih, encodeStep_attempted]
    by_cases h : env.sourceHeight < q.height
    · have hf : ¬ q.height ≤ env.sourceHeight := Nat.not_le.mpr h
      simp [List.filter_cons, h, hf]
    · have ht : q.height ≤ env.sourceHeight := Nat.not_lt.mp h
      simp [List.filter_cons, h, ht, List.append_assoc]

/-- All the per-quality steps succeeding for `q`: the tier is planned, the
transcode and HLS segmentation succeed, and both uploads succeed. -/
def renditionOk (env : Env) (vid : String) (q : Quality) : Bool :=
  decide (q.height ≤ env.sourceHeight) && env.encodeOk q.name && env.hlsOk q.name &&
    env.uploadOk (mp4Key vid q.name) && env.uploadOk (playlistKey vid q.name)

theorem encodeStep_processed (env : Env) (vid : String) (s : ProcState) (q : Quality) :
    (encodeStep env vid s q).processed =
      if renditionOk env vid q then s.processed ++ [q.name] else s.processed := by
  by_cases h1 : env.sourceHeight < q.height
  · have hf : ¬ q.height ≤ env.sourceHeight := Nat.not_le.mpr h1
    simp [encodeStep, renditionOk, h1, hf]
  · have ht : q.height ≤ env.sourceHeight := Nat.not_lt.mp h1
    by_cases h2 : env.encodeOk q.name = true <;>
    by_cases h3 : env.hlsOk q.name = true <;>
    by_cases h4 : env.uploadOk (mp4Key vid q.name) = true <;>
    by_cases h5 : env.uploadOk (playlistKey vid q.name) = true <;>
    simp [encodeStep, renditionOk, h1, ht, h2, h3, h4, h5, Bool.not_eq_true] at *

theorem foldl_encode_processed (env : Env) (vid : String) (qs : List Quality) (s : ProcState) :
    (qs.foldl (encodeStep env vid) s).processed =
      s.processed ++ (qs.filter (renditionOk env vid)).map (fun q => q.name) := by
  induction qs generalizing s with
  | nil => simp
  | cons q qs ih =>
    rw [List.foldl_cons, ih, encodeStep_processed]
    by_cases h : renditionOk env vid q = true
    · simp [List.filter_cons, h, List.append_assoc]
    · simp [List.filter_cons, h, Bool.not_eq_true] at *


theorem encodeStep_uploads_allok (env : Env) (vid : String)
    (hup : ∀ k, env.uploadOk k = true) (s : ProcState) (q : Quality) :
    (encodeStep env vid s q).uploads =
      s.uploads ++
        (if decide (q.height ≤ env.sourceHeight) && env.encodeOk q.name && env.hlsOk q.name
         then [mp4Key vid q.name, playlistKey vid q.name] else []) := by
  by_cases h1 : env.sourceHeight < q.height
  · have hf : ¬ q.height ≤ env.sourceHeight := Nat.not_le.mpr h1
    simp [encodeStep, h1, hf]
  · have ht : q.height ≤ env.sourceHeight := Nat.not_lt.mp h1
    by_cases h2 : env.encodeOk q.name = true <;>
    by_cases h3 : env.hlsOk q.name = true <;>
    simp [encodeStep, h1, ht, h2, h3, hup, Bool.not_eq_true] at *

theorem foldl_encode_uploads_allok (env : Env) (vid : String)
    (hup : ∀ k, env.uploadOk k = true) (qs : List Quality) (s : ProcState) :
    (qs.foldl (encodeStep env vid) s).uploads =
      s.uploads ++
        ((qs.filter (fun q =>
            decide (q.height ≤ env.sourceHeight) && env.encodeOk q.name && env.hlsOk q.name)).map
          (fun q => [mp4Key vid q.name, playlistKey vid q.name])).flatten := by
  induction qs generalizing s with
  | nil => simp
  | cons q qs ih =>
    rw [List.foldl_cons, ih, encodeStep_uploads_allok env vid hup]
    by_cases h : (decide (q.height ≤ env.sourceHeight) && env.encodeOk q.name
        && env.hlsOk q.name) = true
    · simp [List.filter_cons, h, List.append_assoc]
    · simp [List.filter_cons, h, Bool.not_eq_true] at *

theorem flatten_pairs_length {α : Type} (f g : α → String) (qs : List α) :
    ((qs.map (fun q => [f q, g q])).flatten).length = 2 * qs.length := by
  induction qs with
  | nil => rfl
  | cons q qs ih =>
    simp [ih]
    omega

theorem flatten_pairs_get {α : Type} (f g : α → String) (qs : List α) (i : Nat)
    (hi : i < qs.length) :
    ((qs.map (fun q => [f q, g q])).flatten).get? (2 * i) = some (f (qs.get ⟨i, hi⟩)) ∧
    ((qs.map (fun q => [f q, g q])).flatten).get? (2 * i + 1) = some (g (qs.get ⟨i, hi⟩)) := by
  induction qs generalizing i with
  | nil => exact absurd hi (Nat.not_lt_zero i)
  | cons q qs ih =>
    cases i with
    | zero => simp
    | succ n =>
      have hn : n < qs.length := Nat.lt_of_succ_lt_succ hi
      have hrec := ih n hn
      have hidx : 2 * (n + 1) = Nat.succ (Nat.succ (2 * n)) := by omega
      have hidx1 : 2 * (n + 1) + 1 = Nat.succ (Nat.succ (2 * n + 1)) := by omega
      constructor
      · rw [hidx]
        simpa [List.get?_cons_succ] using hrec.1
      · rw [hidx1]
        simpa [List.get?_cons_succ] using hrec.2

theorem foldl_lines_append {α : Type} (f g : α → String) (qs : List α) (acc : List String) :
    qs.foldl (fun a q => a ++ [f q, g q]) acc =
      acc ++ (qs.map (fun q => [f q, g q])).flatten := by
  induction qs generalizing acc with
  | nil => simp
  | cons q qs ih => simp [List.foldl_cons, ih, List.append_assoc]

theorem sorted_filter_bitrate (p : Quality → Bool) :
    List.Sorted (· < ·) ((VIDEO_QUALITIES.filter p).map (fun q => q.bitrateK)) := by
  have hs : (VIDEO_QUALITIES.map (fun q => q.bitrateK)).Sorted (· < ·) := by decide
  exact hs.sublist ((List.filter_sublist _).map _)

theorem sorted_filter_sock_bitrate (p : SockQuality → Bool) :
    List.Sorted (· < ·) ((SOCKET_VIDEO_QUALITIES.filter p).map (fun q => q.bitrateK)) := by
  have hs : (SOCKET_VIDEO_QUALITIES.map (fun q => q.bitrateK)).Sorted (· < ·) := by decide
  exact hs.sublist ((List.filter_sublist _).map _)

theorem sorted_filter_sock_height (p : SockQuality → Bool) :
    List.Sorted (· < ·) ((SOCKET_VIDEO_QUALITIES.filter p).map (fun q => q.height)) := by
  have hs : (SOCKET_VIDEO_QUALITIES.map (fun q => q.height)).Sorted (· < ·) := by decide
  exact hs.sublist ((List.filter_sublist _).map _)

theorem sorted_filter_height (p : Quality → Bool) :
    List.Sorted (· < ·) ((VIDEO_QUALITIES.filter p).map (fun q => q.height)) := by
  have hs : (VIDEO_QUALITIES.map (fun q => q.height)).Sorted (· < ·) := by decide
  exact hs.sublist ((List.filter_sublist _).map _)

theorem catchHandler_attempted (env : Env) (s : ProcState) :
    (catchHandler env s).attempted = s.attempted := by
  unfold catchHandler
  split <;> rfl

theorem catchHandler_processed (env : Env) (s : ProcState) :
    (catchHandler env s).processed = s.processed := by
  unfold catchHandler
  split <;> rfl

theorem catchHandler_files (env : Env) (s : ProcState) :
    (catchHandler env s).files = s.files := by
  unfold catchHandler
  split <;> rfl

theorem catchHandler_uploads (env : Env) (s : ProcState) :
    (catchHandler env s).uploads = s.uploads := by
  unfold catchHandler
  split <;> rfl

theorem catchHandler_catalog (env : Env) (s : ProcState) :
    (catchHandler env s).catalog = s.catalog ++ [CatStatus.failed] := by
  unfold catchHandler
  split <;> rfl

/-- Environment where probing, thumbnailing and every S3 upload succeed,
but every single rendition's encode fails. -/
def envAllEncodesFail : Env :=
  { probeOk := true, sourceHeight := 1080, thumbOk := true,
    encodeOk := fun _ => false, hlsOk := fun _ => true,
    uploadOk := fun _ => true, segCount := fun _ => 2, videoExists := true }

/-- C1: the claim says that when zero renditions succeed the job's terminal
outcome is `Failed{"all renditions failed"}` and the catalog is never
marked Published.  The code does the opposite: `processVideo` has no
zero-success check, so with every encode failing it still writes an
(empty) master playlist, marks the catalog `PUBLISHED` and sends the
"your video is live" success notification. -/
theorem c1_all_renditions_fail_still_published :
    lastStatus (processVideo envAllEncodesFail "v") = some CatStatus.published ∧
    (processVideo envAllEncodesFail "v").processed = [] ∧
    (processVideo envAllEncodesFail "v").attempted =
      ["144p", "360p", "480p", "720p", "1080p"] ∧
    (processVideo envAllEncodesFail "v").notifs = [Notif.success "v"] ∧
    (processVideo envAllEncodesFail "v").uploads =
      ["thumbnails/v/thumbnail.jpg", "videos/v/master.m3u8"] := by
  decide

/-- C2 (counterexample): the claim promises an 8-tier ladder containing
240p and, below the lowest tier, a single fallback tier ("never an empty
ladder").  Both planners in the code return the empty ladder for a source
of height 100, and the `videoProcessor.ts` ladder has only 7 tiers with no
240p at all. -/
theorem c2_planner_counterexample :
    applicableQualities 100 = [] ∧
    plannedQualities 100 = [] ∧
    (plannedQualities 2160).length = 7 ∧
    "240p" ∉ (plannedQualities 2160).map (fun q => q.name) := by
  decide

/-- C2 (amended): each planner is a pure function of the source height
returning exactly the standard tiers whose target height is at most the
source height, in ascending height order; for heights at or above 2160 the
full ladder is returned (8 tiers including 240p in the `socket.ts`-bundled
transcoder, 7 tiers without 240p in `videoProcessor.ts`); for heights
below the lowest tier (144) the ladder is empty — there is no fallback
tier. -/
theorem c2_planner_amended :
    ∀ h : Nat,
      (∀ q : SockQuality, q ∈ applicableQualities h ↔
        q ∈ SOCKET_VIDEO_QUALITIES ∧ q.height ≤ h) ∧
      List.Sorted (· < ·) ((applicableQualities h).map (fun q => q.height)) ∧
      (2160 ≤ h → (applicableQualities h).map (fun q => q.name) =
        ["144p", "240p", "360p", "480p", "720p", "1080p", "1440p", "2160p"]) ∧
      (h < 144 → applicableQualities h = []) ∧
      (∀ q : Quality, q ∈ plannedQualities h ↔ q ∈ VIDEO_QUALITIES ∧ q.height ≤ h) ∧
      List.Sorted (· < ·) ((plannedQualities h).map (fun q => q.height)) ∧
      (2160 ≤ h → (plannedQualities h).map (fun q => q.name) =
        ["144p", "360p", "480p", "720p", "1080p", "1440p", "2160p"]) ∧
      (h < 144 → plannedQualities h = []) := by
  intro h
  refine ⟨?_, sorted_filter_sock_height _, ?_, ?_, ?_, sorted_filter_height _, ?_, ?_⟩
  · intro q
    simp [applicableQualities, List.mem_filter]
  · intro hh
    have : applicableQualities h = SOCKET_VIDEO_QUALITIES := by
      apply List.filter_eq_self.mpr
      intro q hq
      fin_cases hq <;> simp only [decide_eq_true_eq] <;> omega
    rw [this]
    rfl
  · intro hh
    apply List.filter_eq_nil_iff.mpr
    intro q hq
    fin_cases hq <;> simp only [decide_eq_true_eq] <;> omega
  · intro q
    simp [plannedQualities, List.mem_filter]
  · intro hh
    have : plannedQualities h = VIDEO_QUALITIES := by
      apply List.filter_eq_self.mpr
      intro q hq
      fin_cases hq <;> simp only [decide_eq_true_eq] <;> omega
    rw [this]
    rfl
  · intro hh
    apply List.filter_eq_nil_iff.mpr
    intro q hq
    fin_cases hq <;> simp only [decide_eq_true_eq] <;> omega

/-- C2 (witness): the amended planner theorem applied at heights 2160 and
100. -/
theorem c2_planner_amended_witness :
    (applicableQualities 2160).map (fun q => q.name) =
      ["144p", "240p", "360p", "480p", "720p", "1080p", "1440p", "2160p"] ∧
    plannedQualities 100 = [] :=
  ⟨(c2_planner_amended 2160).2.2.1 (by decide),
   (c2_planner_amended 100).2.2.2.2.2.2.2 (by decide)⟩

/-- C3 (counterexample): the claim says every remaining rendition is still
attempted after an earlier rendition fails.  In the `socket.ts`-bundled
`transcodeVideo` a failing 144p encode rejects the promise and aborts the
whole transcode: 240p and 360p are applicable for a 360-height source but
are never attempted. -/
theorem c3_fanout_counterexample :
    (socketTranscodeAttempts 360 (fun n => n != "144p")).1 = ["144p"] ∧
    (socketTranscodeAttempts 360 (fun n => n != "144p")).2 = false ∧
    "240p" ∈ (applicableQualities 360).map (fun q => q.name) ∧
    "360p" ∈ (applicableQualities 360).map (fun q => q.name) := by
  decide

/-- Environment for the C3 witness: a 480-height source whose 360p encode
fails while everything else succeeds. -/
def envC3w : Env :=
  { probeOk := true, sourceHeight := 480, thumbOk := true,
    encodeOk := fun n => n != "360p", hlsOk := fun _ => true,
    uploadOk := fun _ => true, segCount := fun _ => 2, videoExists := true }

/-- C3 (amended): in `videoProcessor.ts`'s `processVideo` a rendition
failure is caught by the per-quality catch and does not abort the job —
every planned rendition is attempted regardless of earlier failures, and
`processedFiles` collects exactly the renditions whose transcode,
segmentation and both uploads succeeded; but in the `socket.ts`-bundled
`transcodeVideo` encoding is fail-fast — the attempted tiers are the ones
up to and including the first failure, and the remaining tiers are never
attempted. -/
theorem c3_fanout_amended :
    (∀ (env : Env) (vid : String),
      env.probeOk = true → env.thumbOk = true → env.uploadOk (thumbKey vid) = true →
      (processVideo env vid).attempted =
        (plannedQualities env.sourceHeight).map (fun q => q.name) ∧
      (processVideo env vid).processed =
        (VIDEO_QUALITIES.filter (renditionOk env vid)).map (fun q => q.name)) ∧
    (∀ (encodeOk : String → Bool) (qs : List SockQuality),
      (sockAttempt encodeOk qs).1 =
        (qs.takeWhile (fun q => encodeOk q.name)).map (fun q => q.name) ++
          (((qs.dropWhile (fun q => encodeOk q.name)).head?.map (fun q => q.name)).toList)) := by
  constructor
  · intro env vid hp ht hu
    by_cases hm : env.uploadOk (masterKey vid) = true <;>
      simp [processVideo, tryBody, hp, ht, hu, hm, catchHandler_attempted,
        catchHandler_processed, foldl_encode_attempted, foldl_encode_processed,
        plannedQualities, initState]
  · intro encodeOk qs
    induction qs with
    | nil => rfl
    | cons q qs ih =>
      by_cases h : encodeOk q.name = true
      · simp [sockAttempt, h, List.takeWhile_cons, List.dropWhile_cons, ih]
      · simp [sockAttempt, h, List.takeWhile_cons, List.dropWhile_cons, Bool.not_eq_true] at *

/-- C3 (witness): the fan-out half of the amended theorem applied to a
480-height source with a failing 360p encode. -/
theorem c3_fanout_amended_witness :
    envC3w.probeOk = true ∧ envC3w.thumbOk = true ∧
    envC3w.uploadOk (thumbKey "w") = true ∧
    (processVideo envC3w "w").attempted =
      (plannedQualities envC3w.sourceHeight).map (fun q => q.name) :=
  ⟨rfl, rfl, rfl, (c3_fanout_amended.1 envC3w "w" rfl rfl rfl).1⟩

/-- Environment for C4: a 720-height source where every stage succeeds. -/
def envC4 : Env :=
  { probeOk := true, sourceHeight := 720, thumbOk := true,
    encodeOk := fun _ => true, hlsOk := fun _ => true,
    uploadOk := fun _ => true, segCount := fun _ => 2, videoExists := true }

/-- C4 (counterexample): the claim says each successful rendition's
playlist is uploaded under `videos/{videoId}/{renditionName}/{renditionName}.m3u8`
with its numbered segment files alongside.  On a fully successful job the
code uploads flat keys `videos/{videoId}/{name}.mp4` and
`videos/{videoId}/{name}.m3u8`; no per-rendition directory is used and no
`.ts` segment file is ever uploaded. -/
theorem c4_upload_keys_counterexample :
    (processVideo envC4 "v").uploads =
      ["thumbnails/v/thumbnail.jpg",
       "videos/v/144p.mp4", "videos/v/144p.m3u8",
       "videos/v/360p.mp4", "videos/v/360p.m3u8",
       "videos/v/480p.mp4", "videos/v/480p.m3u8",
       "videos/v/720p.mp4", "videos/v/720p.m3u8",
       "videos/v/master.m3u8"] ∧
    "videos/v/720p/720p.m3u8" ∉ (processVideo envC4 "v").uploads ∧
    "videos/v/720p/720p_000.ts" ∉ (processVideo envC4 "v").uploads ∧
    "720p_000.ts" ∉ (processVideo envC4 "v").uploads := by
  decide

/-- C4 (amended): for every publishing job (S3 reachable throughout), the
thumbnail is uploaded to `thumbnails/{videoId}/thumbnail.jpg` and the
master manifest to `videos/{videoId}/master.m3u8` as claimed, but each
successfully encoded rendition contributes exactly the two flat keys
`videos/{videoId}/{name}.mp4` and `videos/{videoId}/{name}.m3u8` — there
is no per-rendition directory and the segment files are never uploaded. -/
theorem c4_upload_keys_amended :
    ∀ (env : Env) (vid : String),
      env.probeOk = true → env.thumbOk = true → (∀ k, env.uploadOk k = true) →
      (processVideo env vid).uploads =
        [thumbKey vid] ++
          ((VIDEO_QUALITIES.filter (fun q =>
              decide (q.height ≤ env.sourceHeight) && env.encodeOk q.name &&
                env.hlsOk q.name)).map
            (fun q => [mp4Key vid q.name, playlistKey vid q.name])).flatten ++
          [masterKey vid] := by
  intro env vid hp ht hu
  simp [processVideo, tryBody, hp, ht, hu,
    foldl_encode_uploads_allok env vid hu, initState]

/-- C4 (witness): the amended upload-layout theorem applied to the
all-success environment. -/
theorem c4_upload_keys_amended_witness :
    envC4.probeOk = true ∧ envC4.thumbOk = true ∧
    (processVideo envC4 "v").uploads =
      [thumbKey "v"] ++
        ((VIDEO_QUALITIES.filter (fun q =>
            decide (q.height ≤ envC4.sourceHeight) && envC4.encodeOk q.name &&
              envC4.hlsOk q.name)).map
          (fun q => [mp4Key "v" q.name, playlistKey "v" q.name])).flatten ++
        [masterKey "v"] :=
  ⟨rfl, rfl, c4_upload_keys_amended envC4 "v" rfl rfl (fun _ => rfl)⟩

/-- Environment for C5: a 144-height source (single-tier ladder) where
every stage succeeds and segmentation produces two media segments. -/
def envC5 : Env :=
  { probeOk := true, sourceHeight := 144, thumbOk := true,
    encodeOk := fun _ => true, hlsOk := fun _ => true,
    uploadOk := fun _ => true, segCount := fun _ => 2, videoExists := true }

/-- C5 (counterexample): the claim says zero files remain in the work
directory after any terminal outcome.  On a fully successful single-tier
job the local master playlist and both HLS segment files are never
deleted. -/
theorem c5_cleanup_counterexample :
    lastStatus (processVideo envC5 "v") = some CatStatus.published ∧
    (processVideo envC5 "v").files = ["144p_000.ts", "144p_001.ts", "master.m3u8"] ∧
    (processVideo envC5 "v").files ≠ [] := by
  decide

theorem encodeStep_files_mem (env : Env) (vid : String) (s : ProcState) (q : Quality)
    (f : String) (h1 : f ≠ q.name ++ ".mp4") (h2 : f ≠ q.name ++ ".m3u8")
    (hf : f ∈ s.files) : f ∈ (encodeStep env vid s q).files := by
  unfold encodeStep
  repeat' split
  all_goals simp [List.mem_filter, List.mem_append, hf, h1, h2]

theorem foldl_encode_files_mem (env : Env) (vid : String) (qs : List Quality)
    (s : ProcState) (f : String) :
    (∀ q ∈ qs, f ≠ q.name ++ ".mp4" ∧ f ≠ q.name ++ ".m3u8") →
    f ∈ s.files → f ∈ (qs.foldl (encodeStep env vid) s).files := by
  induction qs generalizing s with
  | nil => exact fun _ hf => hf
  | cons q qs ih =>
    intro hq hf
    rw [List.foldl_cons]
    exact ih _ (fun q2 hq2 => hq q2 (List.mem_cons_of_mem _ hq2))
      (encodeStep_files_mem env vid s q f (hq q (List.mem_cons_self _ _)).1
        (hq q (List.mem_cons_self _ _)).2 hf)

theorem tryBody_ok_inv (env : Env) (vid : String) (s : ProcState)
    (h : tryBody env vid = Except.ok s) :
    s.catalog = [CatStatus.processing, CatStatus.published] ∧
    "master.m3u8" ∈ s.files ∧
    "source.mp4" ∉ s.files ∧
    "thumbnail.jpg" ∉ s.files := by
  by_cases hp : env.probeOk = true
  · by_cases ht : env.thumbOk = true
    · by_cases hu : env.uploadOk (thumbKey vid) = true
      · by_cases hm : env.uploadOk (masterKey vid) = true
        · simp [tryBody, hp, ht, hu, hm, initState] at h
          subst h
          refine ⟨?_, ?_, ?_, ?_⟩
          · simp [foldl_encode_catalog, initState]
          · simp [List.mem_filter, List.mem_append]
          · simp [List.mem_filter]
          · simp [List.mem_filter]
        · simp [tryBody, hp, ht, hu, hm] at h
      · simp [tryBody, hp, ht, hu] at h
    · simp [tryBody, hp, ht] at h
  · simp [tryBody, hp] at h

theorem tryBody_error_inv (env : Env) (vid : String) (s : ProcState)
    (h : tryBody env vid = Except.error s) :
    "source.mp4" ∈ s.files ∧ s.catalog = [CatStatus.processing] := by
  have hnames : ∀ q ∈ VIDEO_QUALITIES,
      ("source.mp4" : String) ≠ q.name ++ ".mp4" ∧
      ("source.mp4" : String) ≠ q.name ++ ".m3u8" := by decide
  by_cases hp : env.probeOk = true
  · by_cases ht : env.thumbOk = true
    · by_cases hu : env.uploadOk (thumbKey vid) = true
      · by_cases hm : env.uploadOk (masterKey vid) = true
        · simp [tryBody, hp, ht, hu, hm] at h
        · simp [tryBody, hp, ht, hu, hm, initState] at h
          subst h
          constructor
          · apply List.mem_append_left
            apply foldl_encode_files_mem env vid VIDEO_QUALITIES _ _ hnames
            simp
          · simp [foldl_encode_catalog]
      · simp [tryBody, hp, ht, hu, initState] at h
        subst h
        simp
    · simp [tryBody, hp, ht, initState] at h
      subst h
      simp
  · simp [tryBody, hp, initState] at h
    subst h
    simp

/-- C5 (amended): cleanup is partial, not total, and the work directory is
never empty at a terminal outcome.  The catch block deletes nothing, so on
every failure path whatever was present at the moment of the throw remains
— in particular the source copy is still present after every Failed
outcome (a late failure such as the master-manifest upload occurs after
the per-quality unlinks already removed each successful rendition's local
MP4 and playlist, but the directory is never emptied).  On every success
path the source copy and the thumbnail are deleted, but the local master
playlist remains (together with the segment files, as the counterexample
shows). -/
theorem c5_cleanup_amended :
    ∀ (env : Env) (vid : String),
      (∀ s : ProcState, (catchHandler env s).files = s.files) ∧
      (lastStatus (processVideo env vid) = some CatStatus.failed →
        "source.mp4" ∈ (processVideo env vid).files ∧
        (processVideo env vid).files ≠ []) ∧
      (lastStatus (processVideo env vid) = some CatStatus.published →
        "master.m3u8" ∈ (processVideo env vid).files ∧
        "source.mp4" ∉ (processVideo env vid).files ∧
        "thumbnail.jpg" ∉ (processVideo env vid).files ∧
        (processVideo env vid).files ≠ []) := by
  intro env vid
  refine ⟨fun s => catchHandler_files env s, ?_⟩
  cases htb : tryBody env vid with
  | ok s =>
    obtain ⟨hcat, hmaster, hsrc, hthumb⟩ := tryBody_ok_inv env vid s htb
    have hpv : processVideo env vid = s := by simp [processVideo, htb]
    rw [hpv]
    constructor
    · intro hlast
      unfold lastStatus at hlast
      rw [hcat] at hlast
      exact absurd hlast (by decide)
    · intro _
      exact ⟨hmaster, hsrc, hthumb, List.ne_nil_of_mem hmaster⟩
  | error s =>
    obtain ⟨hsrc, hcat⟩ := tryBody_error_inv env vid s htb
    have hpv : processVideo env vid = catchHandler env s := by simp [processVideo, htb]
    rw [hpv]
    constructor
    · intro _
      rw [catchHandler_files]
      exact ⟨hsrc, List.ne_nil_of_mem hsrc⟩
    · intro hlast
      unfold lastStatus at hlast
      rw [catchHandler_catalog, hcat] at hlast
      exact absurd hlast (by decide)

/-- Environment for the C5 witness's failure path: the thumbnail fails on
a 144-height source. -/
def envC5f : Env :=
  { probeOk := true, sourceHeight := 144, thumbOk := false,
    encodeOk := fun _ => true, hlsOk := fun _ => true,
    uploadOk := fun _ => true, segCount := fun _ => 2, videoExists := true }

/-- C5 (witness): the amended cleanup theorem applied to the all-success
environment (a Published terminal outcome) and to a thumbnail-failure
environment (a Failed terminal outcome). -/
theorem c5_cleanup_amended_witness :
    lastStatus (processVideo envC5 "v") = some CatStatus.published ∧
    "master.m3u8" ∈ (processVideo envC5 "v").files ∧
    lastStatus (processVideo envC5f "v") = some CatStatus.failed ∧
    "source.mp4" ∈ (processVideo envC5f "v").files :=
  ⟨by decide,
   ((c5_cleanup_amended envC5 "v").2.2 (by decide)).1,
   by decide,
   ((c5_cleanup_amended envC5f "v").2.1 (by decide)).1⟩

/-- Environment for C6: the thumbnail screenshot fails on an
otherwise-valid 1080p source. -/
def envC6 : Env :=
  { probeOk := true, sourceHeight := 1080, thumbOk := false,
    encodeOk := fun _ => true, hlsOk := fun _ => true,
    uploadOk := fun _ => true, segCount := fun _ => 2, videoExists := true }

/-- C6 (counterexample): the claim says the terminal outcome carries the
reason "thumbnail failed".  The code records no such reason anywhere: the
catalog row only gets status `FAILED`, and the failure notification's
error field is the generic constant `'Processing failed'`. -/
theorem c6_thumbnail_counterexample :
    lastStatus (processVideo envC6 "v") = some CatStatus.failed ∧
    (processVideo envC6 "v").notifs = [Notif.failure "Processing failed"] ∧
    Notif.failure "thumbnail failed" ∉ (processVideo envC6 "v").notifs := by
  decide

/-- C6 (amended): when thumbnail extraction fails the job is terminal
`FAILED`, no rendition encode is ever attempted and the catalog is never
told Published — but no "thumbnail failed" reason is recorded: the catalog
stores only the `FAILED` status and the notification carries the generic
`'Processing failed'` error text. -/
theorem c6_thumbnail_amended :
    ∀ (env : Env) (vid : String),
      env.probeOk = true → env.thumbOk = false → env.videoExists = true →
      (processVideo env vid).catalog = [CatStatus.processing, CatStatus.failed] ∧
      (processVideo env vid).attempted = [] ∧
      CatStatus.published ∉ (processVideo env vid).catalog ∧
      (processVideo env vid).notifs = [Notif.failure "Processing failed"] := by
  intro env vid hp ht hv
  simp [processVideo, tryBody, catchHandler, hp, ht, hv, initState]

/-- C6 (witness): the amended thumbnail-failure theorem applied to the
concrete thumbnail-failure environment. -/
theorem c6_thumbnail_amended_witness :
    envC6.thumbOk = false ∧
    (processVideo envC6 "v").attempted = [] ∧
    CatStatus.published ∉ (processVideo envC6 "v").catalog :=
  ⟨rfl, (c6_thumbnail_amended envC6 "v" rfl rfl rfl).2.1,
   (c6_thumbnail_amended envC6 "v" rfl rfl rfl).2.2.1⟩

/-- Environment for C7: probing fails and the failure-path `findUnique`
no longer finds the video row. -/
def envC7 : Env :=
  { probeOk := false, sourceHeight := 1080, thumbOk := true,
    encodeOk := fun _ => true, hlsOk := fun _ => true,
    uploadOk := fun _ => true, segCount := fun _ => 0, videoExists := false }

/-- C7 (counterexample): the claim says a terminal job never produces zero
notifications.  When the failure path's `findUnique` returns null (the
video row is gone), the `if (video)` guard skips the notification: the
job terminates `FAILED` with zero notifications. -/
theorem c7_notification_counterexample :
    lastStatus (processVideo envC7 "v") = some CatStatus.failed ∧
    (processVideo envC7 "v").notifs = [] := by
  decide

/-- C7 (amended): provided the video row still exists on the failure path,
every terminal job produces exactly one notification — the success
notification iff it published, the failure notification iff it failed;
when the row is gone the failure path produces zero (as the
counterexample shows). -/
theorem c7_notification_amended :
    ∀ (env : Env) (vid : String), env.videoExists = true →
      (processVideo env vid).notifs.length = 1 ∧
      (lastStatus (processVideo env vid) = some CatStatus.published →
        (processVideo env vid).notifs = [Notif.success vid]) ∧
      (lastStatus (processVideo env vid) = some CatStatus.failed →
        (processVideo env vid).notifs = [Notif.failure "Processing failed"]) := by
  intro env vid hv
  by_cases hp : env.probeOk = true
  · by_cases ht : env.thumbOk = true
    · by_cases hu : env.uploadOk (thumbKey vid) = true
      · by_cases hm : env.uploadOk (masterKey vid) = true
        · simp [processVideo, tryBody, hp, ht, hu, hm, lastStatus,
            foldl_encode_catalog, foldl_encode_notifs, initState]
        · simp [processVideo, tryBody, catchHandler, hp, ht, hu, hm, hv, lastStatus,
            foldl_encode_catalog, foldl_encode_notifs, initState]
      · simp [processVideo, tryBody, catchHandler, hp, ht, hu, hv, lastStatus, initState]
    · simp [processVideo, tryBody, catchHandler, hp, ht, hv, lastStatus, initState]
  · simp [processVideo, tryBody, catchHandler, hp, hv, lastStatus, initState]

/-- Environment for the C7 witness: a fully successful 360-height job
whose video row exists. -/
def envC7w : Env :=
  { probeOk := true, sourceHeight := 360, thumbOk := true,
    encodeOk := fun _ => true, hlsOk := fun _ => true,
    uploadOk := fun _ => true, segCount := fun _ => 1, videoExists := true }

/-- C7 (witness): the amended notification theorem applied to a fully
successful job whose video row exists. -/
theorem c7_notification_amended_witness :
    envC7w.videoExists = true ∧ (processVideo envC7w "v").notifs.length = 1 :=
  ⟨rfl, (c7_notification_amended envC7w "v" rfl).1⟩

/-- C8: the master manifest assembled by `generateMasterHLS` from any
non-empty set of successful renditions (the code passes
`VIDEO_QUALITIES.filter(q => processedFiles[q.name])`) consists of the two
header lines followed by exactly one two-line stream-variant entry per
successful rendition in ladder order: line `2i+2` carries the i-th
successful rendition's bandwidth (`parseInt(bitrate) * 1000`) and
`width x height` resolution, and line `2i+3` references that same
rendition's own playlist `{name}.m3u8`; bitrates appear in strictly
ascending order, and renditions that did not succeed contribute no entry.
The manifest the `socket.ts`-bundled `transcodeVideo` accumulates has the
same shape: header plus one `(sockStreamInf, playlist)` entry per
applicable tier, in strictly ascending bitrate order. -/
theorem c8_master_manifest :
    ∀ p : String → Bool,
      VIDEO_QUALITIES.filter (fun q => p q.name) ≠ [] →
      ((masterHLSLines (VIDEO_QUALITIES.filter (fun q => p q.name))).length =
          2 + 2 * (VIDEO_QUALITIES.filter (fun q => p q.name)).length) ∧
      (∀ i, ∀ hi : i < (VIDEO_QUALITIES.filter (fun q => p q.name)).length,
        (masterHLSLines (VIDEO_QUALITIES.filter (fun q => p q.name))).get? (2 * i + 2) =
            some (streamInfLine ((VIDEO_QUALITIES.filter (fun q => p q.name)).get ⟨i, hi⟩)) ∧
        (masterHLSLines (VIDEO_QUALITIES.filter (fun q => p q.name))).get? (2 * i + 3) =
            some (((VIDEO_QUALITIES.filter (fun q => p q.name)).get ⟨i, hi⟩).name ++ ".m3u8")) ∧
      List.Sorted (· < ·)
        ((VIDEO_QUALITIES.filter (fun q => p q.name)).map (fun q => q.bitrateK)) ∧
      (∀ q ∈ VIDEO_QUALITIES, p q.name = false →
        q ∉ VIDEO_QUALITIES.filter (fun q => p q.name)) ∧
      (∀ h : Nat,
        sockManifestLines h =
          ["#EXTM3U", "#EXT-X-VERSION:3"] ++
            ((applicableQualities h).map
              (fun q => [sockStreamInf q, q.name ++ ".m3u8"])).flatten ∧
        List.Sorted (· < ·) ((applicableQualities h).map (fun q => q.bitrateK))) := by
  intro p hne
  refine ⟨?_, ?_, sorted_filter_bitrate _, ?_, ?_⟩
  · unfold masterHLSLines
    rw [List.length_append, flatten_pairs_length]
    rfl
  · intro i hi
    have h := flatten_pairs_get (fun q => streamInfLine q) (fun q => q.name ++ ".m3u8")
      (VIDEO_QUALITIES.filter (fun q => p q.name)) i hi
    constructor
    · have hidx : 2 * i + 2 = Nat.succ (Nat.succ (2 * i)) := by omega
      simp only [masterHLSLines, hidx, List.cons_append, List.nil_append,
        List.get?_cons_succ]
      exact h.1
    · have hidx : 2 * i + 3 = Nat.succ (Nat.succ (2 * i + 1)) := by omega
      simp only [masterHLSLines, hidx, List.cons_append, List.nil_append,
        List.get?_cons_succ]
      exact h.2
  · intro q hq hpq
    simp [List.mem_filter, hpq]
  · intro h
    exact ⟨foldl_lines_append _ _ _ _, sorted_filter_sock_bitrate _⟩

/-- C8 (witness): the manifest theorem applied to the successful-rendition
set `{360p, 720p}` from the spec's own round-trip example. -/
theorem c8_master_manifest_witness :
    VIDEO_QUALITIES.filter (fun q => q.name == "360p" || q.name == "720p") ≠ [] ∧
    List.Sorted (· < ·)
      ((VIDEO_QUALITIES.filter (fun q => q.name == "360p" || q.name == "720p")).map
        (fun q => q.bitrateK)) :=
  ⟨by decide,
   (c8_master_manifest (fun n => n == "360p" || n == "720p") (by decide)).2.2.1⟩

/-- Worker environment for C9: the payload "bad" fails `JSON.parse` while
"good" parses to video id "v" and then processes successfully. -/
def wenvC9 : WorkerEnv :=
  { parse := fun p => if p == "good" then some "v" else none,
    jobEnv := fun _ =>
      { probeOk := true, sourceHeight := 144, thumbOk := true,
        encodeOk := fun _ => true, hlsOk := fun _ => true,
        uploadOk := fun _ => true, segCount := fun _ => 1, videoExists := true } }

/-- C9 (counterexample): the claim says a job that throws an unhandled
defect is recorded in the catalog as `Failed{"internal error"}`.  The
worker-loop `catch` only logs: after the malformed job "bad" is consumed,
no result (hence no catalog record of any kind, let alone one with reason
"internal error") exists for it — the job is dropped silently — while the
loop does keep running and processes the next job. -/
theorem c9_worker_boundary_counterexample :
    (processQueueTick wenvC9
      { queue := ["bad", "good"], errorLog := [], results := [] }).results = [] ∧
    (processQueueTick wenvC9
      { queue := ["bad", "good"], errorLog := [], results := [] }).errorLog =
      ["Video queue processing error"] ∧
    (processQueueTick wenvC9
      { queue := ["bad", "good"], errorLog := [], results := [] }).queue = ["good"] ∧
    ((processQueueTick wenvC9 (processQueueTick wenvC9
      { queue := ["bad", "good"], errorLog := [], results := [] })).results.map
        (fun r => r.1)) = ["v"] := by
  decide

/-- C9 (amended): an error thrown while handling the head job is caught at
the `processVideoQueue` boundary and logged, and the loop keeps running —
the queue advances so subsequent jobs are still processed — but nothing is
recorded in the catalog for the failed job (its results are unchanged);
a parseable job is dispatched to the orchestrator exactly once. -/
theorem c9_worker_boundary_amended :
    ∀ (w : WorkerEnv) (st : LoopState) (p : String) (rest : List String),
      st.queue = p :: rest →
      (w.parse p = none →
        (processQueueTick w st).results = st.results ∧
        (processQueueTick w st).errorLog =
          st.errorLog ++ ["Video queue processing error"] ∧
        (processQueueTick w st).queue = rest) ∧
      (∀ vid, w.parse p = some vid →
        (processQueueTick w st).results =
          st.results ++ [(vid, processVideo (w.jobEnv p) vid)] ∧
        (processQueueTick w st).queue = rest) := by
  intro w st p rest hq
  constructor
  · intro hp
    simp [processQueueTick, hq, hp]
  · intro vid hp
    simp [processQueueTick, hq, hp]

/-- C9 (witness): the amended worker-boundary theorem applied to the
malformed payload "bad" at the head of a singleton queue. -/
theorem c9_worker_boundary_amended_witness :
    wenvC9.parse "bad" = none ∧
    (processQueueTick wenvC9 { queue := ["bad"], errorLog := [], results := [] }).results = [] :=
  ⟨by decide,
   ((c9_worker_boundary_amended wenvC9
      { queue := ["bad"], errorLog := [], results := [] } "bad" [] rfl).1 (by decide)).1⟩

theorem runQueue_invariant (ops : List QOp) (t : QueueTrace)
    (h : t.pushed = t.popped ++ t.queue) :
    (ops.foldl qStep t).pushed = (ops.foldl qStep t).popped ++ (ops.foldl qStep t).queue := by
  induction ops generalizing t with
  | nil => exact h
  | cons op ops ih =>
    rw [List.foldl_cons]
    apply ih
    cases op with
    | push j => simp [qStep, h, List.append_assoc]
    | pop =>
      cases hq : t.queue with
      | nil =>
        have h2 : t.pushed = t.popped := by simpa [hq] using h
        simp [qStep, hq, h2]
      | cons j rest =>
        simp only [qStep, hq]
        rw [h, hq]
        simp

/-- C10: the job queue is FIFO and at-most-once.  `addVideoToQueue` pushes
at the tail (`rPush`) and `processVideoQueue` pops at the head (`lPop`),
so after any interleaving of operations starting from the empty queue, the
sequence of dispatched jobs followed by the remaining queue is exactly the
sequence of enqueued jobs — dispatch order equals enqueue order (the
popped log is a prefix of the pushed log) and no enqueued occurrence is
dispatched more than once. -/
theorem c10_queue_fifo :
    ∀ ops : List QOp,
      (runQueue ops).pushed = (runQueue ops).popped ++ (runQueue ops).queue ∧
      (∃ t, (runQueue ops).popped ++ t = (runQueue ops).pushed) ∧
      (∀ j : String, ((runQueue ops).popped.count j) ≤ ((runQueue ops).pushed.count j)) := by
  intro ops
  have h := runQueue_invariant ops { queue := [], pushed := [], popped := [] } rfl
  refine ⟨h, ⟨(runQueue ops).queue, h.symm⟩, ?_⟩
  intro j
  rw [show (runQueue ops).pushed =
      (runQueue ops).popped ++ (runQueue ops).queue from h, List.count_append]
  exact Nat.le_add_right _ _
